import Mathlib

/-!
Verification of the WiFi scan parsing/normalization pipeline of
`wifi-speed-cli` (src/main.go) against its natural-language specification.

The Go code is shallowly embedded below: pure helpers become Lean
functions, the per-line parser becomes a total function into an explicit
result type (`ok` / `err` / `panic`, where `panic` records a Go runtime
panic such as a slice-bounds violation), and the two rendering pipelines
become pure list transformers from the collected scan results to the
printed lines.
-/

/-- Go's integer division (`/` on `int`), which truncates toward zero.
Lean's `/` on `Int` is Euclidean division, so we model Go's semantics
explicitly via magnitude division with the sign of the operands. -/
def goIntDiv (a b : Int) : Int :=
  if (0 ≤ a ∧ 0 ≤ b) ∨ (a < 0 ∧ b < 0) then Int.ofNat (a.natAbs / b.natAbs)
  else -Int.ofNat (a.natAbs / b.natAbs)

/-- Whitespace recognized by `strings.Fields` for the ASCII range used in
nmcli output (space, tab, newline, carriage return). -/
def isSpaceChar (c : Char) : Bool :=
  c = ' ' || c = '\t' || c = '\n' || c = '\r'

/-- Accumulator-based splitter underlying `goFields`; `acc` holds the
characters of the field currently being read, in reverse. -/
def fieldsAux : List Char → List Char → List String
  | [], [] => []
  | [], acc => [String.mk acc.reverse]
  | c :: cs, acc =>
    if isSpaceChar c then
      if acc.isEmpty then fieldsAux cs []
      else String.mk acc.reverse :: fieldsAux cs []
    else fieldsAux cs (c :: acc)

/-- Model of Go's `strings.Fields`: split around runs of whitespace,
returning the non-empty maximal whitespace-free substrings. -/
def goFields (s : String) : List String := fieldsAux s.data []

/-- Digit-run evaluator for `goAtoi`: consumes the remaining characters,
failing on the first non-digit. -/
def digitsVal : List Char → Nat → Option Nat
  | [], acc => some acc
  | c :: cs, acc =>
    if '0' ≤ c ∧ c ≤ '9' then digitsVal cs (acc * 10 + (c.toNat - '0'.toNat))
    else none

/-- Model of Go's `strconv.Atoi`: optional sign followed by at least one
digit; anything else is a parse error (`none`).  The int64 overflow error
of the real function is not modelled; every signal field in the claims is
far below that bound. -/
def goAtoi (s : String) : Option Int :=
  match s.data with
  | [] => none
  | c :: rest =>
    let signed : Bool × List Char :=
      if c = '-' then (true, rest)
      else if c = '+' then (false, rest)
      else (false, c :: rest)
    match signed with
    | (neg, ds) =>
      if ds.isEmpty then none
      else
        match digitsVal ds 0 with
        | none => none
        | some n => some (if neg then -(n : Int) else (n : Int))

/-- Model of Go's `strings.Join` with a separator. -/
def goJoin (sep : String) : List String → String
  | [] => ""
  | [s] => s
  | s :: rest => s ++ sep ++ goJoin sep rest

/-- Mirror of the `WiFiNetwork` struct of src/main.go (lines 28-36). -/
structure WiFiNetwork where
  SSID : String
  BSSID : String
  Signal : Int
  SignalDBm : Int
  Quality : String
  QualityLabel : String
  InUse : Bool
deriving DecidableEq, Repr

/-- Mirror of `getSignalQualityLabelFromPercent` (src/main.go lines
228-239): threshold chain 80/60/40/20 on the percentage. -/
def getSignalQualityLabelFromPercent (percent : Int) : String :=
  if percent ≥ 80 then "Excellent"
  else if percent ≥ 60 then "Good"
  else if percent ≥ 40 then "Fair"
  else if percent ≥ 20 then "Poor"
  else "Very Poor"

/-- Mirror of `getSignalQualityLabel` (src/main.go lines 344-356), the
second, textually identical threshold chain used by the library-based
scan path. -/
def getSignalQualityLabel (quality : Int) : String :=
  if quality ≥ 80 then "Excellent"
  else if quality ≥ 60 then "Good"
  else if quality ≥ 40 then "Fair"
  else if quality ≥ 20 then "Poor"
  else "Very Poor"

/-- Percent-to-dBm conversion of src/main.go line 218:
`network.SignalDBm = -100 + (signal * 60 / 100)`, with Go's truncating
integer division. -/
def percentToDbm (signal : Int) : Int :=
  -100 + goIntDiv (signal * 60) 100

/-- Mirror of the `Infra` search loop of src/main.go lines 187-193:
index of the first occurrence of the mode keyword in the given field
suffix, if any. -/
def findInfraIdx : List String → Option Nat
  | [] => none
  | f :: fs => if f = "Infra" then some 0 else (findInfraIdx fs).map (· + 1)

/-- Result of one `parseNetworkLine` call: a parsed entry, a non-nil
error (the caller skips the line), or a Go runtime panic.  The panic case
arises from the slice expression `fields[startIdx+1 : ssidEnd]` when
`ssidEnd < startIdx+1` (slice bounds out of range), which crashes the
whole program because the parse runs in a goroutine without `recover`. -/
inductive PRes where
  | ok (n : WiFiNetwork)
  | err
  | panic
deriving DecidableEq, Repr

/-- Mirror of `parseNetworkLine` (src/main.go lines 164-225).  The line is
split by whitespace; fewer than 7 fields is an error; a leading `*` marks
the in-use network; the SSID spans the fields between the BSSID and the
first `Infra` token (falling back to "last six fields are fixed" when the
token is absent); an SSID equal to `--` is replaced by the hidden label;
the signal field (third from the end) must parse as an integer. -/
def parseNetworkLine (line : String) : PRes :=
  let fields := goFields line
  if fields.length < 7 then PRes.err
  else
    let inUse := fields.getD 0 "" = "*"
    let startIdx := if inUse then 1 else 0
    let infraIndex : Option Nat :=
      (findInfraIdx (fields.drop (startIdx + 1))).map (fun i => startIdx + 1 + i)
    let ssidEnd : Nat :=
      match infraIndex with
      | some i => i
      | none => fields.length - 6
    if ssidEnd < startIdx + 1 then PRes.panic
    else
      let ssidRaw := goJoin " " ((fields.drop (startIdx + 1)).take (ssidEnd - (startIdx + 1)))
      let ssid := if ssidRaw = "--" then "[Hidden Network]" else ssidRaw
      match goAtoi (fields.getD (fields.length - 3) "") with
      | none => PRes.err
      | some signal =>
        PRes.ok { SSID := ssid
                  BSSID := fields.getD startIdx ""
                  Signal := signal
                  SignalDBm := percentToDbm signal
                  Quality := fields.getD (fields.length - 2) ""
                  QualityLabel := getSignalQualityLabelFromPercent signal
                  InUse := inUse }

/-- Numeric rank of a quality label, used to state that the classifier is
monotone: a higher rank is a better tier. -/
def tierRank (label : String) : Nat :=
  if label = "Excellent" then 4
  else if label = "Good" then 3
  else if label = "Fair" then 2
  else if label = "Poor" then 1
  else 0

/-- Mirror of the dBm-to-percent computation of `scanWiFi` (src/main.go
lines 305-313): 100 for −30 dBm or stronger, 0 for −100 dBm or weaker,
otherwise `100 - int(float64(rssi+30) / -70.0 * 100.0)`.  For every
integer rssi strictly between −100 and −30 the float64 expression is a
positive value whose truncation toward zero coincides with the exact
rational truncation (checked exhaustively over the 69 reachable inputs;
the value is always at least 1/7 away from the nearest integer except
when it is exactly an integer, far beyond float64 rounding error), so the
truncation is modelled by `goIntDiv` on exact integers. -/
def dbmToPercent (rssi : Int) : Int :=
  if -30 ≤ rssi then 100
  else if rssi ≤ -100 then 0
  else 100 - goIntDiv ((rssi + 30) * 100) (-70)

/-- Truncation toward zero on ℚ, the semantics of Go's float-to-int
conversion `int(x)`. -/
def ratTrunc (q : ℚ) : Int :=
  if 0 ≤ q then ⌊q⌋ else -⌊-q⌋

/-- Formula for dBm-to-percent as the spec's words state it (§4.1):
`clamp(round(100 - (power_dbm + 30) / -70 * 100), 0, 100)`. -/
def specDbmToPercentRound (p : Int) : Int :=
  max 0 (min 100 (round ((100 : ℚ) - ((p : ℚ) + 30) / (-70) * 100)))

/-- Amended formula for dBm-to-percent: the spec's linear map with
truncation toward zero in place of rounding,
`clamp(100 - trunc((power_dbm + 30) / -70 * 100), 0, 100)`. -/
def specDbmToPercentTrunc (p : Int) : Int :=
  max 0 (min 100 (100 - ratTrunc (((p : ℚ) + 30) / (-70) * 100)))

/-- Formula for percent-to-dBm as the spec states it (§4.1):
`dbm = -100 + percent*60/100`, with the integer division of the source. -/
def specPercentToDbm (q : Int) : Int :=
  -100 + goIntDiv (q * 60) 100

/-- Mirror of `isHexString` (src/main.go lines 335-342): every rune is a
hexadecimal digit. -/
def isHexString (s : String) : Bool :=
  s.data.all fun r =>
    (decide ('0' ≤ r) && decide (r ≤ '9')) ||
    (decide ('a' ≤ r) && decide (r ≤ 'f')) ||
    (decide ('A' ≤ r) && decide (r ≤ 'F'))

/-- Mirror of `isLikelyMacAddress` (src/main.go lines 329-332): exactly
12 bytes, all hexadecimal (Go's `len` counts bytes, hence
`utf8ByteSize`). -/
def isLikelyMacAddress (s : String) : Bool :=
  s.utf8ByteSize == 12 && isHexString s

/-- Mirror of the identifier determination of the library-based scan path
(src/main.go lines 290-303): a name containing a colon or looking like a
bare MAC address is displayed as the fixed hidden label, any other name
is displayed as-is. -/
def libDisplaySSID (ssid : String) : String :=
  if ssid.data.contains ':' || isLikelyMacAddress ssid then "[Hidden Network]"
  else ssid

/-- Record returned by the wifiscan library: a name and a signal power in
dBm (the only fields src/main.go reads). -/
structure LibNetwork where
  SSID : String
  RSSI : Int
deriving DecidableEq, Repr

/-- Stable insertion of one element into a descending-sorted list: the
element moves past strictly greater keys only, so among equal keys the
inserted (originally earlier) element comes first. -/
def insertDescBy {α : Type} (key : α → Int) (x : α) : List α → List α
  | [] => [x]
  | y :: ys => if key x < key y then y :: insertDescBy key x ys else x :: y :: ys

/-- Stable descending sort by an integer key.  Models the
`sort.Slice(..., func(i, j) { return key(i) > key(j) })` calls of
src/main.go lines 135 and 273: Go's slice sort runs its insertion-sort
small case — which computes exactly this stable descending permutation —
on every slice shorter than its pdqsort cutoff, which covers all concrete
lists appearing in the theorems below.  (For longer slices Go's
`sort.Slice` is documented as not stable; see the C7 analysis in the
results.) -/
def sortDescBy {α : Type} (key : α → Int) : List α → List α
  | [] => []
  | x :: xs => insertDescBy key x (sortDescBy key xs)

/-- Mirror of the `uniqueNetworks` de-duplication loop of src/main.go
lines 282-288: walk the list keeping the first entry for each raw SSID,
accumulating the set of seen SSIDs. -/
def dedupFirstBy : List String → List LibNetwork → List LibNetwork
  | _, [] => []
  | seen, n :: ns =>
    if n.SSID ∈ seen then dedupFirstBy seen ns
    else n :: dedupFirstBy (n.SSID :: seen) ns

/-- Entries of the library-based scan path in rendered order
(src/main.go lines 272-288): sort by descending RSSI with `sort.Slice`,
then drop duplicate raw SSIDs during the render loop, first occurrence
of the sorted order retained. -/
def libRendered (networks : List LibNetwork) : List LibNetwork :=
  dedupFirstBy [] (sortDescBy (fun n => n.RSSI) networks)

/-- Model of Go's `%-Ns` printf verb: left-justify in a field of N
characters (no truncation when longer). -/
def padRight (s : String) (w : Nat) : String :=
  s ++ String.mk (List.replicate (w - s.length) ' ')

/-- Row layout `%-30s %-20s %-20s %-15s` shared by the table header and
the data rows (src/main.go lines 120 and 141). -/
def fmtRow (a b c d : String) : String :=
  padRight a 30 ++ " " ++ padRight b 20 ++ " " ++ padRight c 20 ++ " " ++ padRight d 15

/-- One rendered table row of the nmcli path (src/main.go lines 140-145):
SSID, BSSID, `<signal>% (<dBm> dBm)`, `<bars> (<label>)`. -/
def nmcliRow (n : WiFiNetwork) : String :=
  fmtRow n.SSID n.BSSID
    (toString n.Signal ++ "% (" ++ toString n.SignalDBm ++ " dBm)")
    (n.Quality ++ " (" ++ n.QualityLabel ++ ")")

/-- Friendly empty-result message of src/main.go lines 149 and 323. -/
def noNetworksMsg : String :=
  "No WiFi networks found. Make sure your WiFi adapter is enabled."

/-- Header block printed by the nmcli path before any rows (src/main.go
lines 118-121). -/
def nmcliHeaderLines : List String :=
  ["Available Wi-Fi Networks:",
   "-------------------------",
   fmtRow "SSID" "MAC Address" "Signal Strength" "Quality",
   "-------------------------------------------------------------------------"]

/-- Entries of the nmcli path in rendered order (src/main.go lines
134-146): sorted by descending signal, no de-duplication.  The input list
is the multiset of successfully parsed lines, in whatever order the
parsing goroutines delivered them. -/
def nmcliRenderedNetworks (networks : List WiFiNetwork) : List WiFiNetwork :=
  sortDescBy (fun n => n.Signal) networks

/-- Full visible output of a successful nmcli scan (src/main.go lines
117-151): header block, one row per entry in rendered order, and the
friendly message exactly when the collected list is empty. -/
def nmcliOutputLines (networks : List WiFiNetwork) : List String :=
  nmcliHeaderLines ++ (nmcliRenderedNetworks networks).map nmcliRow ++
    (if networks.isEmpty then [noNetworksMsg] else [])

/-- Helper: the tier rank of the classifier output, as a numeric
case split on the same thresholds. -/
theorem tierRank_classifier (p : Int) :
    tierRank (getSignalQualityLabelFromPercent p) =
      if p ≥ 80 then 4 else if p ≥ 60 then 3 else if p ≥ 40 then 2
      else if p ≥ 20 then 1 else 0 := by
  unfold getSignalQualityLabelFromPercent
  split_ifs <;> decide

/-- C2: the signal classifier is a pure function of the percent with
exactly the spec's thresholds (`>=80` Excellent, `60..79` Good, `40..59`
Fair, `20..39` Poor, otherwise Very Poor), takes the stated values at all
boundary points, and its tier rank is monotone non-decreasing in the
percent. -/
theorem classifier_thresholds_and_monotone :
    (∀ p : Int, p ≥ 80 → getSignalQualityLabelFromPercent p = "Excellent") ∧
    (∀ p : Int, 60 ≤ p → p ≤ 79 → getSignalQualityLabelFromPercent p = "Good") ∧
    (∀ p : Int, 40 ≤ p → p ≤ 59 → getSignalQualityLabelFromPercent p = "Fair") ∧
    (∀ p : Int, 20 ≤ p → p ≤ 39 → getSignalQualityLabelFromPercent p = "Poor") ∧
    (∀ p : Int, p ≤ 19 → getSignalQualityLabelFromPercent p = "Very Poor") ∧
    getSignalQualityLabelFromPercent 80 = "Excellent" ∧
    getSignalQualityLabelFromPercent 79 = "Good" ∧
    getSignalQualityLabelFromPercent 60 = "Good" ∧
    getSignalQualityLabelFromPercent 59 = "Fair" ∧
    getSignalQualityLabelFromPercent 40 = "Fair" ∧
    getSignalQualityLabelFromPercent 39 = "Poor" ∧
    getSignalQualityLabelFromPercent 20 = "Poor" ∧
    getSignalQualityLabelFromPercent 19 = "Very Poor" ∧
    getSignalQualityLabelFromPercent 0 = "Very Poor" ∧
    (∀ p q : Int, p ≤ q →
      tierRank (getSignalQualityLabelFromPercent p) ≤
        tierRank (getSignalQualityLabelFromPercent q)) := by
  refine ⟨?_, ?_, ?_, ?_, ?_, by decide, by decide, by decide, by decide, by decide,
    by decide, by decide, by decide, by decide, ?_⟩
  · intro p h
    unfold getSignalQualityLabelFromPercent
    rw [if_pos h]
  · intro p h1 h2
    unfold getSignalQualityLabelFromPercent
    rw [if_neg (by omega), if_pos (by omega)]
  · intro p h1 h2
    unfold getSignalQualityLabelFromPercent
    rw [if_neg (by omega), if_neg (by omega), if_pos (by omega)]
  · intro p h1 h2
    unfold getSignalQualityLabelFromPercent
    rw [if_neg (by omega), if_neg (by omega), if_neg (by omega), if_pos (by omega)]
  · intro p h
    unfold getSignalQualityLabelFromPercent
    rw [if_neg (by omega), if_neg (by omega), if_neg (by omega), if_neg (by omega)]
  · intro p q hpq
    rw [tierRank_classifier, tierRank_classifier]
    split_ifs <;> omega

/-- C2 witness: the monotonicity part applied at the concrete pair 30 ≤ 75
and the threshold clauses at concrete points. -/
theorem classifier_thresholds_and_monotone_witness :
    getSignalQualityLabelFromPercent 95 = "Excellent" ∧
    getSignalQualityLabelFromPercent 75 = "Good" ∧
    tierRank (getSignalQualityLabelFromPercent 30) ≤
      tierRank (getSignalQualityLabelFromPercent 75) :=
  ⟨classifier_thresholds_and_monotone.1 95 (by decide),
   classifier_thresholds_and_monotone.2.1 75 (by decide) (by decide),
   classifier_thresholds_and_monotone.2.2.2.2.2.2.2.2.2.2.2.2.2.2
     30 75 (by decide)⟩

/-- C10: the two quality-label functions of the source,
`getSignalQualityLabelFromPercent` (nmcli path) and
`getSignalQualityLabel` (library path), are extensionally equal. -/
theorem quality_label_functions_agree :
    ∀ q : Int, getSignalQualityLabelFromPercent q = getSignalQualityLabel q := by
  intro q
  rfl

/-- Helper: floor of the spec's linear expression, as integer division. -/
theorem qexpr_floor (p : Int) :
    ⌊((p : ℚ) + 30) / (-70) * 100⌋ = (-(p + 30) * 100) / 70 := by
  have h : ((p : ℚ) + 30) / (-70) * 100 = ((-(p + 30) * 100 : ℤ) : ℚ) / ((70 : ℕ) : ℚ) := by
    push_cast
    ring
  rw [h, Rat.floor_intCast_div_natCast]
  norm_num

/-- Helper: floor of the negated linear expression, as integer division. -/
theorem qexpr_neg_floor (p : Int) :
    ⌊-(((p : ℚ) + 30) / (-70) * 100)⌋ = ((p + 30) * 100) / 70 := by
  have h : -(((p : ℚ) + 30) / (-70) * 100) = (((p + 30) * 100 : ℤ) : ℚ) / ((70 : ℕ) : ℚ) := by
    push_cast
    ring
  rw [h, Rat.floor_intCast_div_natCast]
  norm_num

/-- Helper: sign of the spec's linear expression in integer terms. -/
theorem qexpr_nonneg_iff (p : Int) :
    0 ≤ ((p : ℚ) + 30) / (-70) * 100 ↔ (p + 30) * 100 ≤ 0 := by
  have h : ((p : ℚ) + 30) / (-70) * 100 = ((-(p + 30) * 100 : ℤ) : ℚ) / ((70 : ℕ) : ℚ) := by
    push_cast
    ring
  have h2 : (0 : ℚ) ≤ ((-(p + 30) * 100 : ℤ) : ℚ) ↔ 0 ≤ -(p + 30) * 100 := by
    exact_mod_cast Iff.rfl
  rw [h, div_nonneg_iff]
  constructor
  · rintro (⟨ha, -⟩ | ⟨-, hb⟩)
    · have := h2.mp ha
      omega
    · norm_num at hb
  · intro hle
    exact Or.inl ⟨h2.mpr (by omega), by norm_num⟩

/-- Helper: the Nat-to-Int cast commutes with division (definitional). -/
theorem intOfNat_div (m n : Nat) : Int.ofNat (m / n) = Int.ofNat m / Int.ofNat n := rfl

/-- Helper: Go division of nonnegative operands is Euclidean division. -/
theorem goIntDiv_nonneg (a b : Int) (ha : 0 ≤ a) (hb : 0 ≤ b) :
    goIntDiv a b = a / b := by
  unfold goIntDiv
  rw [if_pos (Or.inl ⟨ha, hb⟩), intOfNat_div,
    show Int.ofNat a.natAbs = a from Int.natAbs_of_nonneg ha,
    show Int.ofNat b.natAbs = b from Int.natAbs_of_nonneg hb]

/-- Helper: Go division of a nonpositive dividend by a negative divisor
(written as the negation of a positive one) is Euclidean division of the
negated dividend. -/
theorem goIntDiv_nonpos_nonpos (a b : Int) (ha : a ≤ 0) (hb : 0 < b) :
    goIntDiv a (-b) = (-a) / b := by
  unfold goIntDiv
  rcases lt_or_eq_of_le ha with h0 | h0
  · rw [if_pos (Or.inr ⟨h0, by omega⟩), intOfNat_div,
      show Int.ofNat a.natAbs = -a from Int.ofNat_natAbs_of_nonpos ha,
      show Int.ofNat (-b).natAbs = b from
        (Int.ofNat_natAbs_of_nonpos (by omega)).trans (neg_neg b)]
  · subst h0
    rw [if_neg (by omega)]
    simp

/-- Helper: Go division of a nonnegative dividend by a negative divisor
is the negated Euclidean division by the positive divisor. -/
theorem goIntDiv_nonneg_neg (a b : Int) (ha : 0 ≤ a) (hb : 0 < b) :
    goIntDiv a (-b) = -(a / b) := by
  unfold goIntDiv
  rw [if_neg (by omega), intOfNat_div,
    show Int.ofNat a.natAbs = a from Int.natAbs_of_nonneg ha,
    show Int.ofNat (-b).natAbs = b from
      (Int.ofNat_natAbs_of_nonpos (by omega)).trans (neg_neg b)]

/-- Helper: the code's dBm-to-percent function equals the clamped
truncation formula at every integer input. -/
theorem dbmToPercent_eq_specTrunc (p : Int) :
    dbmToPercent p = specDbmToPercentTrunc p := by
  unfold dbmToPercent specDbmToPercentTrunc ratTrunc
  rcases le_or_lt 0 (((p : ℚ) + 30) / (-70) * 100) with hq | hq
  · have hint : (p + 30) * 100 ≤ 0 := (qexpr_nonneg_iff p).mp hq
    rw [if_pos hq, qexpr_floor,
      goIntDiv_nonpos_nonpos ((p + 30) * 100) 70 hint (by decide)]
    split_ifs <;> omega
  · have hint : ¬(p + 30) * 100 ≤ 0 := fun hc =>
      absurd ((qexpr_nonneg_iff p).mpr hc) (not_le.mpr hq)
    rw [if_neg (not_le.mpr hq), qexpr_neg_floor,
      goIntDiv_nonneg_neg ((p + 30) * 100) 70 (by omega) (by decide)]
    split_ifs <;> omega

/-- C3 (amended): the percent-to-dBm conversion is exactly the spec's
formula `-100 + q*60/100`; the dBm-to-percent conversion equals the
clamped linear map with truncation toward zero (the spec's `round` is
amended to truncation); both conversions are monotone (percent-to-dBm on
percentages, dBm-to-percent everywhere); and all four stated boundary
values hold. -/
theorem signal_conversions :
    (∀ q : Int, percentToDbm q = specPercentToDbm q) ∧
    (∀ p : Int, dbmToPercent p = specDbmToPercentTrunc p) ∧
    (∀ p q : Int, 0 ≤ p → p ≤ q → percentToDbm p ≤ percentToDbm q) ∧
    (∀ r s : Int, r ≤ s → dbmToPercent r ≤ dbmToPercent s) ∧
    percentToDbm 100 = -40 ∧ percentToDbm 0 = -100 ∧
    dbmToPercent (-30) = 100 ∧ dbmToPercent (-100) = 0 := by
  refine ⟨fun q => rfl, dbmToPercent_eq_specTrunc, ?_, ?_,
    by decide, by decide, by decide, by decide⟩
  · intro p q hp hpq
    unfold percentToDbm
    rw [goIntDiv_nonneg (p * 60) 100 (by omega) (by decide),
      goIntDiv_nonneg (q * 60) 100 (by omega) (by decide)]
    omega
  · intro r s hrs
    unfold dbmToPercent
    split_ifs <;>
      first
        | omega
        | (rw [goIntDiv_nonpos_nonpos ((r + 30) * 100) 70 (by omega) (by decide)]
           omega)
        | (rw [goIntDiv_nonpos_nonpos ((s + 30) * 100) 70 (by omega) (by decide)]
           omega)
        | (rw [goIntDiv_nonpos_nonpos ((r + 30) * 100) 70 (by omega) (by decide),
             goIntDiv_nonpos_nonpos ((s + 30) * 100) 70 (by omega) (by decide)]
           omega)

/-- C3 witness: the monotonicity clauses applied at concrete points
10 ≤ 50 (percent side) and −80 ≤ −40 (dBm side). -/
theorem signal_conversions_witness :
    percentToDbm 10 ≤ percentToDbm 50 ∧ dbmToPercent (-80) ≤ dbmToPercent (-40) :=
  ⟨signal_conversions.2.2.1 10 50 (by decide) (by decide),
   signal_conversions.2.2.2.1 (-80) (-40) (by decide)⟩

/-- C3 counterexample: at −32 dBm the code truncates and yields 98, while
the spec's rounding formula yields 97, so the claimed equation with
`round` is false. -/
theorem signal_conversion_round_cex :
    dbmToPercent (-32) = 98 ∧ specDbmToPercentRound (-32) = 97 ∧
    dbmToPercent (-32) ≠ specDbmToPercentRound (-32) := by
  have h1 : dbmToPercent (-32) = 98 := by decide
  have h2 : specDbmToPercentRound (-32) = 97 := by
    unfold specDbmToPercentRound
    rw [show ((100 : ℚ) - (((-32 : Int) : ℚ) + 30) / (-70) * 100) = 680 / 7 by
      push_cast; norm_num]
    rw [round_eq]
    norm_num
  exact ⟨h1, h2, by rw [h1, h2]; decide⟩

/-- C4 counterexample: the claimed colon-delimited layout is not
recognized by the parser.  The line `MyNet:80:▂▄▆█` contains no
whitespace, so `strings.Fields` yields a single field, the
fewer-than-seven check fires, and the parser reports an error (skip)
instead of the claimed entry with identifier `MyNet` and signal 80. -/
theorem colon_layout_not_supported_cex :
    parseNetworkLine "MyNet:80:▂▄▆█" = PRes.err := by decide

/-- C4 (amended): colon-layout lines are not parsed at all; both of the
spec's colon examples split into a single whitespace field and are
skipped by the minimum-field-count check. -/
theorem colon_layout_lines_are_skipped :
    parseNetworkLine "MyNet:80:▂▄▆█" = PRes.err ∧
    parseNetworkLine ":70:▂▄▆_" = PRes.err ∧
    (goFields "MyNet:80:▂▄▆█").length = 1 ∧
    (goFields ":70:▂▄▆_").length = 1 := by decide

/-- C5 (code bug): a seven-field line that starts with the in-use marker
`*` and contains no `Infra` token drives the fallback SSID slice to
`fields[2:1]`, a slice-bounds violation: the parser panics (crashing the
scan, since the goroutine has no recover) instead of skipping the line,
even though its signal field `zz` is unparseable and the claim promises a
skip.  Well-formed short lines and unparseable-signal lines without the
marker are indeed skipped, as the last two conjuncts show. -/
theorem short_in_use_line_panics :
    parseNetworkLine "* AA:BB:CC:DD:EE:FF foo 11 zz bars WPA" = PRes.panic ∧
    parseNetworkLine "AA:BB MyNet 82" = PRes.err ∧
    parseNetworkLine "AA:BB MyNet Infra 11 270 abc ▂▄ WPA2" = PRes.err := by decide

/-- Helper: a space-joined pair of fields always contains a space, so it
never equals the nmcli hidden-SSID placeholder `--`. -/
theorem join_space_ne_dashes (s1 s2 : String) : s1 ++ " " ++ s2 ≠ "--" := by
  intro h
  have hmem : ' ' ∈ (s1 ++ " " ++ s2).data := by
    rw [String.data_append, String.data_append]
    simp
  rw [h] at hmem
  exact absurd hmem (by decide)

/-- Helper: parse of a well-formed nine-field whitespace line whose SSID
is split over two fields, with the mode keyword present at the mode
column or absent everywhere after the SSID. -/
theorem nine_field_parse
    (line : String) (bssid s1 s2 m ch rate sig bars sec : String) (p : Int)
    (hf : goFields line = [bssid, s1, s2, m, ch, rate, sig, bars, sec])
    (hb : bssid ≠ "*")
    (h1 : s1 ≠ "Infra") (h2 : s2 ≠ "Infra")
    (hm : m = "Infra" ∨ "Infra" ∉ ([m, ch, rate, sig, bars, sec] : List String))
    (hs : goAtoi sig = some p) :
    parseNetworkLine line =
      PRes.ok { SSID := s1 ++ " " ++ s2, BSSID := bssid, Signal := p,
                SignalDBm := percentToDbm p, Quality := bars,
                QualityLabel := getSignalQualityLabelFromPercent p, InUse := false } := by
  rcases hm with hm | hm
  · subst hm
    simp [parseNetworkLine, hf, hb, h1, h2, findInfraIdx, goJoin, hs, List.getD,
      join_space_ne_dashes s1 s2]
  · simp only [List.mem_cons, not_or] at hm
    obtain ⟨hm1, hm2, hm3, hm4, hm5, hm6, -⟩ := hm
    simp [parseNetworkLine, hf, hb, h1, h2, findInfraIdx, goJoin, hs, List.getD,
      join_space_ne_dashes s1 s2,
      Ne.symm hm1, Ne.symm hm2, Ne.symm hm3, Ne.symm hm4, Ne.symm hm5, Ne.symm hm6]

/-- Helper: parse of a line whose SSID field is the placeholder `--`:
the entry receives the fixed hidden display label. -/
theorem hidden_placeholder_parse
    (line b2 m2 c2 r2 g2 br2 se2 : String) (p2 : Int)
    (hf : goFields line = [b2, "--", m2, c2, r2, g2, br2, se2])
    (hb : b2 ≠ "*")
    (hm : m2 = "Infra" ∨ "Infra" ∉ ([m2, c2, r2, g2, br2, se2] : List String))
    (hs : goAtoi g2 = some p2) :
    parseNetworkLine line =
      PRes.ok { SSID := "[Hidden Network]", BSSID := b2, Signal := p2,
                SignalDBm := percentToDbm p2, Quality := br2,
                QualityLabel := getSignalQualityLabelFromPercent p2, InUse := false } := by
  rcases hm with hm | hm
  · subst hm
    simp [parseNetworkLine, hf, hb, findInfraIdx, goJoin, hs, List.getD]
  · simp only [List.mem_cons, not_or] at hm
    obtain ⟨hm1, hm2, hm3, hm4, hm5, hm6, -⟩ := hm
    simp [parseNetworkLine, hf, hb, findInfraIdx, goJoin, hs, List.getD,
      Ne.symm hm1, Ne.symm hm2, Ne.symm hm3, Ne.symm hm4, Ne.symm hm5, Ne.symm hm6]

/-- C1: a well-formed whitespace-layout line of nine fields whose SSID
has one embedded space (the mode keyword `Infra` marking the trailing
fixed fields, or absent so that the last six fields are assumed fixed)
parses to an entry whose identifier is the space-join of the two SSID
words, whose signal is the parsed signal field, and which is not hidden;
and a line whose SSID field is the placeholder `--` parses to an entry
carrying the fixed hidden display label `[Hidden Network]`. -/
theorem whitespace_layout_parse
    (line : String) (bssid s1 s2 m ch rate sig bars sec : String) (p : Int)
    (hf : goFields line = [bssid, s1, s2, m, ch, rate, sig, bars, sec])
    (hb : bssid ≠ "*")
    (h1 : s1 ≠ "Infra") (h2 : s2 ≠ "Infra")
    (hm : m = "Infra" ∨ "Infra" ∉ ([m, ch, rate, sig, bars, sec] : List String))
    (hs : goAtoi sig = some p)
    (hh : s1 ++ " " ++ s2 ≠ "[Hidden Network]") :
    parseNetworkLine line =
      PRes.ok { SSID := s1 ++ " " ++ s2, BSSID := bssid, Signal := p,
                SignalDBm := percentToDbm p, Quality := bars,
                QualityLabel := getSignalQualityLabelFromPercent p, InUse := false } ∧
    s1 ++ " " ++ s2 ≠ "[Hidden Network]" ∧
    (∀ (line2 b2 m2 c2 r2 g2 br2 se2 : String) (p2 : Int),
      goFields line2 = [b2, "--", m2, c2, r2, g2, br2, se2] → b2 ≠ "*" →
      (m2 = "Infra" ∨ "Infra" ∉ ([m2, c2, r2, g2, br2, se2] : List String)) →
      goAtoi g2 = some p2 →
      parseNetworkLine line2 =
        PRes.ok { SSID := "[Hidden Network]", BSSID := b2, Signal := p2,
                  SignalDBm := percentToDbm p2, Quality := br2,
                  QualityLabel := getSignalQualityLabelFromPercent p2, InUse := false }) :=
  ⟨nine_field_parse line bssid s1 s2 m ch rate sig bars sec p hf hb h1 h2 hm hs, hh,
   fun line2 b2 m2 c2 r2 g2 br2 se2 p2 hf2 hb2 hm2 hs2 =>
     hidden_placeholder_parse line2 b2 m2 c2 r2 g2 br2 se2 p2 hf2 hb2 hm2 hs2⟩

/-- C1 witness: the theorem applied to the concrete line
`AA:BB:CC:DD:EE:FF My Net Infra 11 270 82 ▂▄▆█ WPA2` (identifier
`My Net`, signal 82, −51 dBm, Excellent) and to the hidden line
`11:22:33:44:55:66 -- Infra 6 130 70 ▂▄▆_ WPA2`. -/
theorem whitespace_layout_parse_witness :
    parseNetworkLine "AA:BB:CC:DD:EE:FF My Net Infra 11 270 82 ▂▄▆█ WPA2" =
      PRes.ok { SSID := "My Net", BSSID := "AA:BB:CC:DD:EE:FF", Signal := 82,
                SignalDBm := -51, Quality := "▂▄▆█",
                QualityLabel := "Excellent", InUse := false } ∧
    parseNetworkLine "11:22:33:44:55:66 -- Infra 6 130 70 ▂▄▆_ WPA2" =
      PRes.ok { SSID := "[Hidden Network]", BSSID := "11:22:33:44:55:66", Signal := 70,
                SignalDBm := -58, Quality := "▂▄▆_",
                QualityLabel := "Good", InUse := false } := by
  have h := whitespace_layout_parse
    "AA:BB:CC:DD:EE:FF My Net Infra 11 270 82 ▂▄▆█ WPA2"
    "AA:BB:CC:DD:EE:FF" "My" "Net" "Infra" "11" "270" "82" "▂▄▆█" "WPA2" 82
    (by decide) (by decide) (by decide) (by decide) (Or.inl rfl) (by decide) (by decide)
  exact ⟨h.1, h.2.2 "11:22:33:44:55:66 -- Infra 6 130 70 ▂▄▆_ WPA2"
    "11:22:33:44:55:66" "Infra" "6" "130" "70" "▂▄▆_" "WPA2" 70
    (by decide) (by decide) (Or.inl rfl) (by decide)⟩

/-- Helper: correctness of the first-occurrence de-duplication loop — the
retained SSIDs are pairwise distinct and not among the seen ones, and
every retained entry is the first element of the input carrying its
SSID. -/
theorem dedupFirstBy_spec (l : List LibNetwork) (seen : List String) :
    ((dedupFirstBy seen l).map LibNetwork.SSID).Nodup ∧
    ∀ n ∈ dedupFirstBy seen l,
      n.SSID ∉ seen ∧ l.find? (fun y => y.SSID == n.SSID) = some n := by
  induction l generalizing seen with
  | nil => simp [dedupFirstBy]
  | cons x xs ih =>
    by_cases hx : x.SSID ∈ seen
    · obtain ⟨ihn, ihf⟩ := ih seen
      rw [dedupFirstBy, if_pos hx]
      refine ⟨ihn, ?_⟩
      intro n hn
      obtain ⟨hns, hnf⟩ := ihf n hn
      refine ⟨hns, ?_⟩
      have hne : (x.SSID == n.SSID) = false := by
        simp only [beq_eq_false_iff_ne, ne_eq]
        intro heq
        exact hns (heq ▸ hx)
      rw [List.find?_cons_of_neg _ (by simp [hne]), hnf]
    · obtain ⟨ihn, ihf⟩ := ih (x.SSID :: seen)
      rw [dedupFirstBy, if_neg hx]
      constructor
      · rw [List.map_cons, List.nodup_cons]
        refine ⟨?_, ihn⟩
        intro hmem
        obtain ⟨n, hn, hns⟩ := List.exists_of_mem_map hmem
        have := (ihf n hn).1
        rw [hns] at this
        exact this (List.mem_cons_self _ _)
      · intro n hn
        rcases List.mem_cons.mp hn with rfl | hn
        · exact ⟨hx, by rw [List.find?_cons_of_pos _ (by simp)]⟩
        · obtain ⟨hns, hnf⟩ := ihf n hn
          have hn1 : n.SSID ≠ x.SSID := fun h => hns (h ▸ List.mem_cons_self _ _)
          have hn2 : n.SSID ∉ seen := fun h => hns (List.mem_cons_of_mem _ h)
          refine ⟨hn2, ?_⟩
          rw [List.find?_cons_of_neg _ (by simp [Ne.symm hn1]), hnf]

/-- C6 (amended): only the library-based scan path de-duplicates — its
rendered list carries pairwise distinct raw SSIDs, and every retained
entry is the first occurrence of its SSID in the sorted iteration order
(the nmcli path renders duplicates unchanged, see the counterexample). -/
theorem lib_path_dedup_first_occurrence (networks : List LibNetwork) :
    ((libRendered networks).map LibNetwork.SSID).Nodup ∧
    ∀ n ∈ libRendered networks,
      (sortDescBy (fun x => x.RSSI) networks).find? (fun y => y.SSID == n.SSID) =
        some n := by
  obtain ⟨h1, h2⟩ := dedupFirstBy_spec (sortDescBy (fun n => n.RSSI) networks) []
  exact ⟨h1, fun n hn => (h2 n hn).2⟩

/-- C6 witness: the theorem applied to a concrete scan with SSID `A`
observed twice (−50 dBm and −60 dBm) and SSID `B` once: only the first
sorted occurrence of `A` survives. -/
theorem lib_path_dedup_first_occurrence_witness :
    ((libRendered
        ([⟨"A", -50⟩, ⟨"B", -80⟩, ⟨"A", -60⟩] : List LibNetwork)).map
      LibNetwork.SSID).Nodup ∧
    (sortDescBy (fun x : LibNetwork => x.RSSI)
        ([⟨"A", -50⟩, ⟨"B", -80⟩, ⟨"A", -60⟩] : List LibNetwork)).find?
      (fun y => y.SSID == "A") = some ⟨"A", -50⟩ :=
  ⟨(lib_path_dedup_first_occurrence
      ([⟨"A", -50⟩, ⟨"B", -80⟩, ⟨"A", -60⟩] : List LibNetwork)).1,
   (lib_path_dedup_first_occurrence
      ([⟨"A", -50⟩, ⟨"B", -80⟩, ⟨"A", -60⟩] : List LibNetwork)).2
     ⟨"A", -50⟩ (by decide)⟩

/-- C6 counterexample: the nmcli scan path performs no de-duplication —
two collected entries with the same identifier `DupNet` are both
rendered, so the claim that duplicates are collapsed before rendering in
every path is false. -/
theorem nmcli_duplicates_rendered_cex :
    (nmcliRenderedNetworks
      [{ SSID := "DupNet", BSSID := "AA", Signal := 50, SignalDBm := -70,
         Quality := "▂▄__", QualityLabel := "Fair", InUse := false },
       { SSID := "DupNet", BSSID := "BB", Signal := 40, SignalDBm := -76,
         Quality := "▂▄__", QualityLabel := "Fair", InUse := false }]).map
      WiFiNetwork.SSID = ["DupNet", "DupNet"] := by decide

/-- C7 (supporting evaluation): for the spec's concrete reconciler
example — X at 50 % and Y at 90 % — the rendered order is Y before X
(descending signal).  The tie-stability part of the claim is not
establishable from the code; see the C7 analysis in the results. -/
theorem higher_signal_renders_first :
    nmcliRenderedNetworks
      [{ SSID := "X", BSSID := "AA", Signal := 50, SignalDBm := -70,
         Quality := "▂▄__", QualityLabel := "Fair", InUse := false },
       { SSID := "Y", BSSID := "BB", Signal := 90, SignalDBm := -46,
         Quality := "▂▄▆█", QualityLabel := "Excellent", InUse := false }] =
      [{ SSID := "Y", BSSID := "BB", Signal := 90, SignalDBm := -46,
         Quality := "▂▄▆█", QualityLabel := "Excellent", InUse := false },
       { SSID := "X", BSSID := "AA", Signal := 50, SignalDBm := -70,
         Quality := "▂▄__", QualityLabel := "Fair", InUse := false }] := by decide

/-- C8 counterexample: the seven-field line
`AA:BB Infra 11 270 150 ▂▄▆█ WPA2` (mode keyword directly after the
BSSID, signal field 150) parses successfully to an entry with an empty
identifier and a signal of 150 — violating both claimed invariants
(non-empty identifier, signal within [0,100]). -/
theorem parser_invariants_cex :
    parseNetworkLine "AA:BB Infra 11 270 150 ▂▄▆█ WPA2" =
      PRes.ok { SSID := "", BSSID := "AA:BB", Signal := 150, SignalDBm := -10,
                Quality := "▂▄▆█", QualityLabel := "Excellent", InUse := false } := by
  decide

/-- C8 (amended): the invariants hold only on the library-based path:
its percentage is clamped to [0,100] by construction, and its displayed
identifier is non-empty whenever the reported name is non-empty (the
nmcli path propagates the parsed signal unclamped and can produce an
empty identifier, see the counterexample). -/
theorem lib_entry_invariants :
    (∀ r : Int, 0 ≤ dbmToPercent r ∧ dbmToPercent r ≤ 100) ∧
    (∀ s : String, s ≠ "" → libDisplaySSID s ≠ "") := by
  constructor
  · intro r
    unfold dbmToPercent
    split_ifs with h1 h2
    · omega
    · omega
    · rw [goIntDiv_nonpos_nonpos ((r + 30) * 100) 70 (by omega) (by decide)]
      omega
  · intro s hs
    unfold libDisplaySSID
    split_ifs with h
    · decide
    · exact hs

/-- C8 witness: the amended invariants at concrete points — a −76 dBm
reading is converted into [0,100], and the non-empty name `MyNet` keeps a
non-empty identifier. -/
theorem lib_entry_invariants_witness :
    (0 ≤ dbmToPercent (-76) ∧ dbmToPercent (-76) ≤ 100) ∧
    libDisplaySSID "MyNet" ≠ "" :=
  ⟨lib_entry_invariants.1 (-76),
   lib_entry_invariants.2 "MyNet" (by decide)⟩

/-- C9: a successful nmcli scan that collects zero entries prints the
header block followed by the friendly no-networks message — the message
is part of the output, which therefore is not the bare header-only
table. -/
theorem empty_scan_prints_message :
    nmcliOutputLines [] = nmcliHeaderLines ++ [noNetworksMsg] ∧
    noNetworksMsg ∈ nmcliOutputLines [] ∧
    nmcliOutputLines [] ≠ nmcliHeaderLines := by
  refine ⟨rfl, ?_, ?_⟩
  · decide
  · decide
